import Mathlib

/-!
# ForgeFlow desktop agent — shallow embedding and verification

This file embeds the core of `src/apps/agent/main.py` in Lean 4:

* the recording side: the key coalescer (`on_press`, `flush_keys`), the click
  recorder (`on_click`) and `record_stop`;
* the playback side: the `run_action` dispatcher with its four action kinds.

Modelling conventions:

* wall-clock timestamps and screen coordinates are rationals (`Rat`);
* the external automation capability (`pyautogui`, `pynput`) is an oracle
  passed in explicitly: screenshot capture may raise (`Except`), and on the
  playback side an `AutoEnv` record supplies the outcomes of
  `locateOnScreen` (per call index), `click` and `typewrite`;
* Python truthiness of optional strings (`if path:`) is `pyTruthyStr`;
* a raised Python exception is an `Except.error` carrying `str(exc)`;
  for the recording callbacks, which mutate global state before a possible
  raise, the embedding returns the partially mutated state together with
  `Option String` (the escaped exception, if any);
* side effects performed by playback (mouse clicks, typed text, locate
  calls, sleeps) are accumulated in a `List Effect` trace.
-/

namespace ForgeFlow

/-- An entry of `recorded_events`: either a coalesced text run
(`{"type": "desktop_type", "value": ...}`) or an image-anchored click
(`{"type": "desktop_click_image", ...}`). -/
inductive Event where
  | desktop_type (value : String)
  | desktop_click_image (x y : Rat) (button : String)
      (imagePath : Option String) (confidence : Rat)
deriving DecidableEq, Repr

/-- The module-level mutable recording state of `main.py`:
`recording`, `recorded_events`, `key_buffer` (a list of one-character
strings, as produced by `key_to_char`), and `last_key_ts`
(0.0 means "never", matching Python float truthiness). -/
structure RecState where
  recording : Bool
  recorded_events : List Event
  key_buffer : List String
  last_key_ts : Rat
deriving DecidableEq, Repr

/-- `KEY_GROUP_TIMEOUT = 0.7` seconds. -/
def KEY_GROUP_TIMEOUT : Rat := 7/10

/-- Python truthiness of an optional string: `None` and `""` are falsy. -/
def pyTruthyStr : Option String → Bool
  | none => false
  | some s => s ≠ ""

/-- The keys the keyboard listener can deliver: a `KeyCode` (whose `.char`
may be absent), the named keys the coalescer maps, or any other named key. -/
inductive Key where
  | keycode (c : Option Char)
  | space
  | enter
  | tab
  | backspace
  | other (name : String)
deriving DecidableEq, Repr

/-- `key_to_char` from `record_start`'s closure: a `KeyCode` with a truthy
`char` yields that character; space/enter/tab yield literal characters;
backspace yields the sentinel string `"BACKSPACE"`; anything else `None`. -/
def key_to_char : Key → Option String
  | .keycode (some c) => some (String.mk [c])
  | .space => some " "
  | .enter => some "\n"
  | .tab => some "\t"
  | .backspace => some "BACKSPACE"
  | _ => none

/-- `flush_keys`: if the buffer is non-empty, append one `desktop_type`
record with the concatenation of the buffered characters and clear the
buffer; an empty buffer is a no-op. -/
def flush_keys (s : RecState) : RecState :=
  if s.key_buffer = [] then s
  else { s with
    recorded_events :=
      s.recorded_events ++ [.desktop_type (String.join s.key_buffer)]
    key_buffer := [] }

/-- `on_press(key)` at wall-clock time `now`: ignore when not recording;
otherwise (under the lock) flush on an idle gap `> KEY_GROUP_TIMEOUT`
(only when `last_key_ts` is truthy, i.e. nonzero), stamp `last_key_ts`,
then map the key: `"BACKSPACE"` pops the last buffered character, an
unmapped key is dropped, and a character is appended to the buffer. -/
def on_press (key : Key) (now : Rat) (s : RecState) : RecState :=
  if s.recording = false then s
  else
    let s1 :=
      if s.last_key_ts ≠ 0 ∧ now - s.last_key_ts > KEY_GROUP_TIMEOUT then
        flush_keys s
      else s
    let s2 := { s1 with last_key_ts := now }
    match key_to_char key with
    | some "BACKSPACE" => { s2 with key_buffer := s2.key_buffer.dropLast }
    | none => s2
    | some c => { s2 with key_buffer := s2.key_buffer ++ [c] }

/-- `on_click(x, y, button, pressed)`: ignore unless recording and a press.
Otherwise, under the lock: flush the key buffer; then, when the session
directory is truthy, capture the 120×120 anchor screenshot — `shot` is the
outcome of `pyautogui.screenshot(...)` / `shot.save(...)`, and
`newImagePath` the session-dir/timestamp path that call would write.
There is no try/except in the source: if the capture raises, the exception
escapes the callback with the flush already applied and no click record
appended. On success a `desktop_click_image` record with confidence 0.8 is
appended. The result is the mutated state plus the escaped exception, if
any. -/
def on_click (x y : Rat) (button : String) (pressed : Bool)
    (sessionDir : Option String) (newImagePath : String)
    (shot : Except String Unit) (s : RecState) :
    RecState × Option String :=
  if s.recording = false ∨ pressed = false then (s, none)
  else
    let s1 := flush_keys s
    if pyTruthyStr sessionDir then
      match shot with
      | .error e => (s1, some e)
      | .ok _ =>
        ({ s1 with recorded_events := s1.recorded_events ++
            [.desktop_click_image x y button (some newImagePath) (8/10)] },
          none)
    else
      ({ s1 with recorded_events := s1.recorded_events ++
          [.desktop_click_image x y button none (8/10)] },
        none)

/-- `record_start`: reset all session state (`recorded_events = []`,
`key_buffer = []`, `last_key_ts = 0.0`, `recording = True`). Directory
creation and listener attachment are external. -/
def record_start : RecState :=
  { recording := true, recorded_events := [], key_buffer := [],
    last_key_ts := 0 }

/-- `record_stop`: set `recording = False` (listener shutdown is external),
then under the lock flush a non-empty key buffer into a final
`desktop_type` record; return the final state and the event list the
endpoint responds with. -/
def record_stop (s : RecState) : RecState × List Event :=
  let s1 := { s with recording := false }
  let s2 :=
    if s1.key_buffer = [] then s1
    else { s1 with
      recorded_events :=
        s1.recorded_events ++ [.desktop_type (String.join s1.key_buffer)]
      key_buffer := [] }
  (s2, s2.recorded_events)

/-- Feed a timed sequence of key presses to `on_press`. -/
def processKeys (s : RecState) : List (Key × Rat) → RecState
  | [] => s
  | (k, t) :: rest => processKeys (on_press k t s) rest

example :
    (record_stop (processKeys record_start
      [(.keycode (some 'h'), 1), (.keycode (some 'i'), 11/10)])).2 =
      [.desktop_type "hi"] := by with_unfolding_all decide

example :
    (record_stop (processKeys record_start
      [(.keycode (some 'a'), 1), (.backspace, 6/5)])).2 = [] := by with_unfolding_all decide

example :
    (record_stop (processKeys record_start
      [(.backspace, 1), (.keycode (some 'a'), 2)])).2 =
      [.desktop_type "a"] := by with_unfolding_all decide

/-! ### Coalescer bookkeeping

Helper functions describing what one `on_press` does to the key buffer, and
predicates on timed key sequences used by the coalescer theorems. -/

/-- The effect of one mapped key on the pending buffer: the `"BACKSPACE"`
sentinel pops the last element, an unmapped key changes nothing, a
character is appended. -/
def applyKey (buf : List String) : Option String → List String
  | some "BACKSPACE" => buf.dropLast
  | none => buf
  | some c => buf ++ [c]

/-- Fold `applyKey ∘ key_to_char` over a key sequence. -/
def applyKeys (buf : List String) : List Key → List String
  | [] => buf
  | k :: rest => applyKeys (applyKey buf (key_to_char k)) rest

/-- The records a flush of buffer `b` appends: none when `b` is empty,
one `desktop_type` otherwise. -/
def flushEvents (b : List String) : List Event :=
  if b = [] then [] else [.desktop_type (String.join b)]

/-- The value `last_key_ts` holds after a timed key sequence, starting
from `last`. -/
def lastTs (last : Rat) : List (Key × Rat) → Rat
  | [] => last
  | (_, t) :: rest => lastTs t rest

/-- All inter-key gaps in a timed key sequence are within
`KEY_GROUP_TIMEOUT`, where `last` is the previous `last_key_ts` (`0`
meaning "no previous keystroke", which the source treats as falsy). -/
def GapsOK : Rat → List (Key × Rat) → Prop
  | _, [] => True
  | last, (_, t) :: rest =>
    (last = 0 ∨ t - last ≤ KEY_GROUP_TIMEOUT) ∧ GapsOK t rest

instance instDecGapsOK :
    ∀ (last : Rat) (ks : List (Key × Rat)), Decidable (GapsOK last ks)
  | _, [] => .isTrue trivial
  | last, (_, t) :: rest =>
    have : Decidable (GapsOK t rest) := instDecGapsOK t rest
    inferInstanceAs (Decidable (_ ∧ _))

/-- The buffer contents a key run leaves behind when started on an empty
buffer. -/
def runText (r : List (Key × Rat)) : List String :=
  applyKeys [] (r.map Prod.fst)

/-- A well-formed list of typing bursts: each run is non-empty with
positive timestamps, starts more than `KEY_GROUP_TIMEOUT` after the
previous accepted keystroke (or from a fresh session, `last = 0`), and is
internally within the timeout. -/
def RunsOK : Rat → List (List (Key × Rat)) → Prop
  | _, [] => True
  | _, [] :: _ => False
  | last, ((_, t) :: rest) :: rs =>
    (last = 0 ∨ t - last > KEY_GROUP_TIMEOUT) ∧ 0 < t ∧
      (∀ p ∈ rest, 0 < p.2) ∧ GapsOK t rest ∧ RunsOK (lastTs t rest) rs

instance instDecRunsOK :
    ∀ (last : Rat) (runs : List (List (Key × Rat))), Decidable (RunsOK last runs)
  | _, [] => .isTrue trivial
  | _, [] :: _ => .isFalse (fun h => h)
  | last, ((_, t) :: rest) :: rs =>
    have : Decidable (RunsOK (lastTs t rest) rs) := instDecRunsOK (lastTs t rest) rs
    inferInstanceAs (Decidable (_ ∧ _))

/-! ### Coalescer lemmas -/

lemma applyKey_char (b : List String) (c : String) (hc : c ≠ "BACKSPACE") :
    applyKey b (some c) = b ++ [c] := by
  unfold applyKey
  split
  · rename_i h2
    injection h2 with h3
    exact absurd h3 hc
  · rename_i h2
    simp at h2
  · rename_i c2 hne h2
    injection h2 with h3
    rw [h3]

lemma on_press_eq (key : Key) (now : Rat) (s : RecState)
    (hr : s.recording = true) :
    on_press key now s =
      (let s1 :=
        if s.last_key_ts ≠ 0 ∧ now - s.last_key_ts > KEY_GROUP_TIMEOUT then
          flush_keys s
        else s
      { s1 with
        last_key_ts := now
        key_buffer := applyKey s1.key_buffer (key_to_char key) }) := by
  rw [on_press, hr]
  simp only [Bool.true_eq_false, if_false]
  rcases h : key_to_char key with _ | c
  · rfl
  · by_cases hc : c = "BACKSPACE"
    · subst hc; rfl
    · rw [applyKey_char _ _ hc]
      split
      · rename_i h2
        injection h2 with h3
        exact absurd h3 hc
      · rename_i h2
        simp at h2
      · rename_i c2 hne h2
        injection h2 with h3
        rw [h3]

lemma on_press_no_flush (key : Key) (now : Rat) (s : RecState)
    (hr : s.recording = true)
    (hg : ¬(s.last_key_ts ≠ 0 ∧ now - s.last_key_ts > KEY_GROUP_TIMEOUT)) :
    on_press key now s =
      { s with
        last_key_ts := now
        key_buffer := applyKey s.key_buffer (key_to_char key) } := by
  rw [on_press_eq key now s hr]
  simp only [if_neg hg]

lemma on_press_flush (key : Key) (now : Rat) (s : RecState)
    (hr : s.recording = true) (h0 : s.last_key_ts ≠ 0)
    (hg : now - s.last_key_ts > KEY_GROUP_TIMEOUT) :
    on_press key now s =
      { s with
        recorded_events := s.recorded_events ++ flushEvents s.key_buffer
        key_buffer := applyKey [] (key_to_char key)
        last_key_ts := now } := by
  rw [on_press_eq key now s hr]
  simp only [if_pos (And.intro h0 hg)]
  rw [flush_keys, flushEvents]
  by_cases hb : s.key_buffer = []
  · simp [hb]
  · simp [hb]

lemma processKeys_tight (ks : List (Key × Rat)) (s : RecState)
    (hr : s.recording = true) (hg : GapsOK s.last_key_ts ks) :
    processKeys s ks =
      { s with
        key_buffer := applyKeys s.key_buffer (ks.map Prod.fst)
        last_key_ts := lastTs s.last_key_ts ks } := by
  induction ks generalizing s with
  | nil => rfl
  | cons kt rest ih =>
    obtain ⟨k, t⟩ := kt
    obtain ⟨hgap, hg'⟩ := hg
    have hnf : ¬(s.last_key_ts ≠ 0 ∧ t - s.last_key_ts > KEY_GROUP_TIMEOUT) := by
      rcases hgap with h | h
      · exact fun hc => hc.1 h
      · exact fun hc => absurd h (not_le.mpr hc.2)
    show processKeys (on_press k t s) rest = _
    rw [on_press_no_flush k t s hr hnf,
      ih { s with key_buffer := applyKey s.key_buffer (key_to_char k), last_key_ts := t } hr hg']
    simp only [List.map_cons, applyKeys, lastTs]

lemma processKeys_append (a b : List (Key × Rat)) (s : RecState) :
    processKeys s (a ++ b) = processKeys (processKeys s a) b := by
  induction a generalizing s with
  | nil => rfl
  | cons kt rest ih =>
    obtain ⟨k, t⟩ := kt
    exact ih (on_press k t s)

lemma lastTs_pos (t : Rat) (rest : List (Key × Rat)) (ht : 0 < t)
    (hrest : ∀ p ∈ rest, 0 < p.2) : 0 < lastTs t rest := by
  induction rest generalizing t with
  | nil => exact ht
  | cons p rs ih =>
    obtain ⟨k2, t2⟩ := p
    exact ih t2 (hrest (k2, t2) (List.mem_cons_self _ _))
      (fun q hq => hrest q (List.mem_cons_of_mem _ hq))

lemma record_stop_snd (s : RecState) :
    (record_stop s).2 = s.recorded_events ++ flushEvents s.key_buffer := by
  rw [record_stop, flushEvents]
  by_cases h : s.key_buffer = [] <;> simp [h]

/-- The records flushed while processing a sequence of bursts: the buffer
pending at each burst's start is flushed by the burst's first keystroke. -/
def runsFlushes (b : List String) : List (List (Key × Rat)) → List Event
  | [] => []
  | r :: rs => flushEvents b ++ runsFlushes (runText r) rs

/-- The buffer left pending after a sequence of bursts. -/
def runsBuffer (b : List String) : List (List (Key × Rat)) → List String
  | [] => b
  | r :: rs => runsBuffer (runText r) rs

/-- The `last_key_ts` after a sequence of bursts. -/
def runsLastTs (last : Rat) : List (List (Key × Rat)) → Rat
  | [] => last
  | r :: rs => runsLastTs (lastTs last r) rs

lemma processKeys_runs (runs : List (List (Key × Rat))) (s : RecState)
    (hr : s.recording = true) (hg : RunsOK s.last_key_ts runs)
    (hb : s.last_key_ts = 0 → s.key_buffer = []) :
    processKeys s runs.flatten =
      { s with
        recorded_events := s.recorded_events ++ runsFlushes s.key_buffer runs
        key_buffer := runsBuffer s.key_buffer runs
        last_key_ts := runsLastTs s.last_key_ts runs } := by
  induction runs generalizing s with
  | nil => simp [runsFlushes, runsBuffer, runsLastTs, List.flatten, processKeys]
  | cons r rs ih =>
    rcases r with _ | ⟨⟨k, t⟩, rest⟩
    · exact hg.elim
    · obtain ⟨hgap, ht, hpos, hgaps, hg'⟩ := hg
      have hstep : on_press k t s =
          { s with
            recorded_events := s.recorded_events ++ flushEvents s.key_buffer
            key_buffer := applyKey [] (key_to_char k)
            last_key_ts := t } := by
        by_cases h0 : s.last_key_ts = 0
        · rw [on_press_no_flush k t s hr (by simp [h0]), hb h0]
          simp [flushEvents]
        · exact on_press_flush k t s hr h0 (hgap.resolve_left h0)
      have e1 : processKeys s (((k, t) :: rest) :: rs).flatten
          = processKeys (processKeys (on_press k t s) rest) rs.flatten := by
        rw [List.flatten_cons, processKeys_append]
        rfl
      rw [e1, hstep]
      rw [processKeys_tight rest
        { s with
          recorded_events := s.recorded_events ++ flushEvents s.key_buffer
          key_buffer := applyKey [] (key_to_char k)
          last_key_ts := t } hr hgaps]
      rw [ih
        { s with
          recorded_events := s.recorded_events ++ flushEvents s.key_buffer
          key_buffer := applyKeys (applyKey [] (key_to_char k)) (List.map Prod.fst rest)
          last_key_ts := lastTs t rest } hr hg'
        (fun h => absurd h (lastTs_pos t rest ht hpos).ne')]
      simp [runsFlushes, runsBuffer, runsLastTs, runText, lastTs, applyKeys]

lemma runsFlushes_stop (runs : List (List (Key × Rat))) (b : List String)
    (hne : ∀ r ∈ runs, runText r ≠ []) :
    runsFlushes b runs ++ flushEvents (runsBuffer b runs) =
      flushEvents b ++
        runs.map (fun r => Event.desktop_type (String.join (runText r))) := by
  induction runs generalizing b with
  | nil => simp [runsFlushes, runsBuffer]
  | cons r rs ih =>
    simp only [runsFlushes, runsBuffer, List.map_cons]
    rw [List.append_assoc, ih (runText r) (fun q hq => hne q (by simp [hq]))]
    rw [show flushEvents (runText r) =
      [Event.desktop_type (String.join (runText r))] from
      by rw [flushEvents, if_neg (hne r (by simp))]]
    simp

/-! ## Playback: the `/run` dispatcher -/

/-- A matched region's bounding box, as returned by
`pyautogui.locateOnScreen`. -/
structure Box where
  left : Rat
  top : Rat
  width : Rat
  height : Rat
deriving DecidableEq, Repr

/-- The fields `run_action` reads out of `payload.data` with `data.get`;
`none` is an absent key (Python `None`). -/
structure ActionData where
  x : Option Rat := none
  y : Option Rat := none
  button : Option String := none
  imagePath : Option String := none
  confidence : Option Rat := none
  value : Option String := none
  timeoutMs : Option Rat := none
deriving DecidableEq, Repr

/-- The `RunPayload` request body: an action tag plus its data dict. -/
structure RunPayload where
  type : String
  data : ActionData
deriving DecidableEq, Repr

/-- The JSON body `run_action` responds with: `ok` is always present, the
other fields only on the branches that set them. -/
structure RunResult where
  ok : Bool
  matched : Option Bool := none
  location : Option Box := none
  error : Option String := none
deriving DecidableEq, Repr

/-- A side effect performed against the desktop during one `run_action`
invocation, in order: a mouse click (coordinates may be absent, meaning
the current pointer position), injected text, a `locateOnScreen` probe, or
a `time.sleep`. -/
inductive Effect where
  | click (x y : Option Rat) (button : String)
  | typewrite (value : String) (interval : Rat)
  | locate (path : Option String) (confidence : Rat)
  | sleep (seconds : Rat)
deriving DecidableEq, Repr

/-- The external automation capability (`pyautogui`) as an oracle:
`locateRes i` is the outcome of the `i`-th `locateOnScreen` call of this
invocation (`Except.error` = the call raised, `Except.ok none` = no match,
`Except.ok (some box)` = matched region); `clickRes` and `typeRes` are the
outcomes of `pyautogui.click` and `pyautogui.typewrite`. -/
structure AutoEnv where
  locateRes : Nat → Except String (Option Box)
  clickRes : Except String Unit
  typeRes : Except String Unit

/-- The `while time.time() - start < timeout` polling loop of
`desktop_wait_for_image`, with the `i`-th `locateOnScreen` call indexing
the oracle. Time is idealised: each failed poll costs exactly the
`time.sleep(0.25)`, so before poll `i` the elapsed time is `0.25·i` and
the loop makes `numPolls timeout` polls in total (see `numPolls`). `fuel`
is the number of polls remaining; the effect trace of this part of the
invocation is returned alongside the outcome. -/
def wait_loop (env : AutoEnv) (path : Option String) :
    Nat → Nat → Except String RunResult × List Effect
  | 0, _ => (.ok { ok := false, error := some "timeout" }, [])
  | fuel + 1, i =>
    match env.locateRes i with
    | .error e => (.error e, [.locate path (8/10)])
    | .ok (some location) =>
      (.ok { ok := true, location := some location },
        [.locate path (8/10)])
    | .ok none =>
      let rest := wait_loop env path fuel (i + 1)
      (rest.1, .locate path (8/10) :: .sleep (1/4) :: rest.2)

/-- Number of polls the `desktop_wait_for_image` loop performs under the
idealised clock: the loop body runs for each `i` with `0.25·i < timeout`,
i.e. `⌈4·timeout⌉` times (`0` for a non-positive timeout). -/
def numPolls (timeout : Rat) : Nat := ⌈4 * timeout⌉₊

/-- The body of the `try:` block of `run_action`: dispatch on
`payload.type` exactly as the source does, threading the oracle and
recording the performed effects. An `Except.error` is an exception about
to hit the `except` clause. -/
def run_action_inner (env : AutoEnv) (payload : RunPayload) :
    Except String RunResult × List Effect :=
  let data := payload.data
  if payload.type = "desktop_click" then
    match env.clickRes with
    | .error e => (.error e, [])
    | .ok _ =>
      (.ok { ok := true },
        [.click data.x data.y (data.button.getD "left")])
  else if payload.type = "desktop_click_image" then
    let path := data.imagePath
    let confidence := data.confidence.getD (8/10)
    -- `if path:` then locate; a found match clicks the region's center
    -- with pyautogui's default (left) button.
    let fallback : List Effect → Except String RunResult × List Effect :=
      fun effs =>
        if data.x ≠ none ∧ data.y ≠ none then
          match env.clickRes with
          | .error e => (.error e, effs)
          | .ok _ =>
            (.ok { ok := true, matched := some false },
              effs ++ [.click data.x data.y (data.button.getD "left")])
        else
          (.ok { ok := false, error := some "image_not_found" }, effs)
    if pyTruthyStr path then
      match env.locateRes 0 with
      | .error e => (.error e, [.locate path confidence])
      | .ok (some location) =>
        match env.clickRes with
        | .error e => (.error e, [.locate path confidence])
        | .ok _ =>
          (.ok { ok := true, matched := some true },
            [.locate path confidence,
              .click (some (location.left + location.width / 2))
                (some (location.top + location.height / 2)) "left"])
      | .ok none => fallback [.locate path confidence]
    else fallback []
  else if payload.type = "desktop_type" then
    let value := data.value.getD ""
    match env.typeRes with
    | .error e => (.error e, [])
    | .ok _ => (.ok { ok := true }, [.typewrite value (1/100)])
  else if payload.type = "desktop_wait_for_image" then
    let timeout := data.timeoutMs.getD 10000 / 1000
    wait_loop env data.imagePath (numPolls timeout) 0
  else
    (.ok { ok := false, error := some "unknown_action" }, [])

/-- `run_action`: the `try/except` wrapper — any exception from the
dispatch body is converted into `{"ok": False, "error": str(exc)}`. -/
def run_action (env : AutoEnv) (payload : RunPayload) :
    RunResult × List Effect :=
  match run_action_inner env payload with
  | (.ok r, effs) => (r, effs)
  | (.error e, effs) => ({ ok := false, error := some e }, effs)

/-- Whether an effect is a mouse click. -/
def isClickEff : Effect → Bool
  | .click _ _ _ => true
  | _ => false

/-- Whether an effect is injected text. -/
def isTypeEff : Effect → Bool
  | .typewrite _ _ => true
  | _ => false

/-- The effect trace of an all-miss polling loop: one locate probe and one
0.25-second sleep per poll. -/
def pollTrace (path : Option String) : Nat → List Effect
  | 0 => []
  | n + 1 => .locate path (8/10) :: .sleep (1/4) :: pollTrace path n

/-! ### Playback lemmas -/

lemma wait_loop_all_none (env : AutoEnv) (path : Option String) :
    ∀ (fuel i0 : Nat), (∀ k, k < fuel → env.locateRes (i0 + k) = .ok none) →
      wait_loop env path fuel i0 =
        (.ok { ok := false, error := some "timeout" }, pollTrace path fuel) := by
  intro fuel
  induction fuel with
  | zero => intro i0 _; rfl
  | succ n ih =>
    intro i0 h
    have h0 : env.locateRes i0 = .ok none := by
      simpa using h 0 (Nat.succ_pos n)
    simp only [wait_loop, h0]
    rw [ih (i0 + 1) (fun k hk => by
      have h2 := h (k + 1) (Nat.succ_lt_succ hk)
      rwa [show i0 + (k + 1) = i0 + 1 + k by omega] at h2)]
    rfl

lemma wait_loop_found (env : AutoEnv) (path : Option String) :
    ∀ (fuel i0 j : Nat) (box : Box), j < fuel →
      (∀ k, k < j → env.locateRes (i0 + k) = .ok none) →
      env.locateRes (i0 + j) = .ok (some box) →
      wait_loop env path fuel i0 =
        (.ok { ok := true, location := some box },
          pollTrace path j ++ [.locate path (8/10)]) := by
  intro fuel
  induction fuel with
  | zero => intro i0 j box hj _ _; exact absurd hj (Nat.not_lt_zero j)
  | succ n ih =>
    intro i0 j box hj hmiss hhit
    cases j with
    | zero =>
      rw [Nat.add_zero] at hhit
      simp only [wait_loop, hhit]
      rfl
    | succ m =>
      have h0 : env.locateRes i0 = .ok none := by
        simpa using hmiss 0 (Nat.succ_pos m)
      simp only [wait_loop, h0]
      rw [ih (i0 + 1) m box (Nat.lt_of_succ_lt_succ hj)
        (fun k hk => by
          have h2 := hmiss (k + 1) (Nat.succ_lt_succ hk)
          rwa [show i0 + (k + 1) = i0 + 1 + k by omega] at h2)
        (by rwa [show i0 + 1 + m = i0 + (m + 1) by omega])]
      rfl

lemma pollTrace_noClick (path : Option String) :
    ∀ n (x y : Option Rat) (b : String), Effect.click x y b ∉ pollTrace path n := by
  intro n
  induction n with
  | zero => intro x y b h; exact List.not_mem_nil _ h
  | succ m ih =>
    intro x y b h
    simp only [pollTrace, List.mem_cons] at h
    rcases h with h | h | h
    · exact Effect.noConfusion h
    · exact Effect.noConfusion h
    · exact ih x y b h

lemma wait_loop_counts (env : AutoEnv) (path : Option String) :
    ∀ fuel i, ((wait_loop env path fuel i).2.countP isClickEff = 0
      ∧ (wait_loop env path fuel i).2.countP isTypeEff = 0) := by
  intro fuel
  induction fuel with
  | zero => intro i; exact ⟨rfl, rfl⟩
  | succ n ih =>
    intro i
    simp only [wait_loop]
    rcases henv : env.locateRes i with e | b
    · simp [List.countP, List.countP.go, isClickEff, isTypeEff]
    · rcases b with _ | box
      · simp only []
        constructor
        · simpa [List.countP_cons, isClickEff] using (ih (i + 1)).1
        · simpa [List.countP_cons, isTypeEff] using (ih (i + 1)).2
      · simp [List.countP, List.countP.go, isClickEff, isTypeEff]

/-! ## Claim theorems -/

/-- C8: for a `desktop_click_image` action where the anchor image does not
match on screen (or no image path is given) and the record carries no
fallback x and y coordinates, the dispatcher reports failure
`image_not_found` and performs no click. -/
theorem click_image_not_found (env : AutoEnv) (data : ActionData)
    (hpath : pyTruthyStr data.imagePath = false ∨ env.locateRes 0 = Except.ok none)
    (hxy : data.x = none ∨ data.y = none) :
    run_action env { type := "desktop_click_image", data := data } =
      ({ ok := false, error := some "image_not_found" },
        if pyTruthyStr data.imagePath then
          [Effect.locate data.imagePath (data.confidence.getD (8/10))]
        else [])
    ∧ ∀ (x y : Option Rat) (b : String),
      Effect.click x y b ∉
        (run_action env { type := "desktop_click_image", data := data }).2 := by
  have hxy' : ¬(data.x ≠ none ∧ data.y ≠ none) := by
    rcases hxy with h | h
    · exact fun hc => hc.1 h
    · exact fun hc => hc.2 h
  by_cases hp : pyTruthyStr data.imagePath
  · have hloc : env.locateRes 0 = Except.ok none := by
      rcases hpath with h | h
      · rw [hp] at h; exact absurd h (by simp)
      · exact h
    have hres : run_action env { type := "desktop_click_image", data := data } =
        ({ ok := false, error := some "image_not_found" },
          [Effect.locate data.imagePath (data.confidence.getD (8/10))]) := by
      rw [run_action, run_action_inner]
      simp only [String.reduceEq, reduceIte, hp, hloc, if_neg hxy']
    rw [hres]
    refine ⟨by simp [hp], ?_⟩
    intro x y b h
    simp at h
  · have hres : run_action env { type := "desktop_click_image", data := data } =
        ({ ok := false, error := some "image_not_found" }, []) := by
      rw [run_action, run_action_inner]
      rw [Bool.not_eq_true] at hp
      simp only [String.reduceEq, reduceIte, hp, Bool.false_eq_true, if_neg hxy']
    rw [hres]
    refine ⟨by simp [hp], ?_⟩
    intro x y b h
    simp at h

/-- An oracle for concrete instantiations: every locate call reports "no
match", click and typewrite succeed. -/
def noneEnv : AutoEnv :=
  { locateRes := fun _ => .ok none, clickRes := .ok (), typeRes := .ok () }

/-- C8 witness: a `desktop_click_image` payload with no image path and no
coordinates fails with `image_not_found` and performs no effect at all. -/
theorem click_image_not_found_witness :
    run_action noneEnv { type := "desktop_click_image", data := {} } =
      ({ ok := false, error := some "image_not_found" }, []) :=
  ((click_image_not_found noneEnv {} (Or.inl rfl) (Or.inl rfl)).1).trans (by rfl)

/-- C9: a `desktop_wait_for_image` action polls `locateOnScreen` at the
fixed 0.25-second interval (under the idealised clock, `numPolls` polls
fit in the caller-specified `timeoutMs`, default 10000 ms): if no poll
matches, it reports failure `timeout` and performs no click; if some poll
matches first at index `j`, it reports success immediately with the
matched bounding box and polls no further. -/
theorem wait_for_image_polling (env : AutoEnv) (data : ActionData) :
    ((∀ i, i < numPolls (data.timeoutMs.getD 10000 / 1000) →
        env.locateRes i = Except.ok none) →
      run_action env { type := "desktop_wait_for_image", data := data } =
        ({ ok := false, error := some "timeout" },
          pollTrace data.imagePath (numPolls (data.timeoutMs.getD 10000 / 1000)))
      ∧ ∀ (x y : Option Rat) (b : String),
        Effect.click x y b ∉
          (run_action env { type := "desktop_wait_for_image", data := data }).2)
    ∧ ∀ j box, j < numPolls (data.timeoutMs.getD 10000 / 1000) →
        (∀ i, i < j → env.locateRes i = Except.ok none) →
        env.locateRes j = Except.ok (some box) →
        run_action env { type := "desktop_wait_for_image", data := data } =
          ({ ok := true, location := some box },
            pollTrace data.imagePath j ++ [Effect.locate data.imagePath (8/10)]) := by
  have hdisp : run_action_inner env { type := "desktop_wait_for_image", data := data } =
      wait_loop env data.imagePath
        (numPolls (data.timeoutMs.getD 10000 / 1000)) 0 := by
    rw [run_action_inner]
    simp only [String.reduceEq, reduceIte]
  constructor
  · intro h
    have hloop := wait_loop_all_none env data.imagePath
      (numPolls (data.timeoutMs.getD 10000 / 1000)) 0
      (fun k hk => by rw [Nat.zero_add]; exact h k hk)
    have hres : run_action env { type := "desktop_wait_for_image", data := data } =
        ({ ok := false, error := some "timeout" },
          pollTrace data.imagePath (numPolls (data.timeoutMs.getD 10000 / 1000))) := by
      rw [run_action, hdisp, hloop]
    refine ⟨hres, ?_⟩
    intro x y b hmem
    rw [hres] at hmem
    exact pollTrace_noClick data.imagePath _ x y b hmem
  · intro j box hj hmiss hhit
    have hloop := wait_loop_found env data.imagePath
      (numPolls (data.timeoutMs.getD 10000 / 1000)) 0 j box hj
      (fun k hk => by rw [Nat.zero_add]; exact hmiss k hk)
      (by rw [Nat.zero_add]; exact hhit)
    rw [run_action, hdisp, hloop]

/-- C9 witness: with a 500 ms timeout and an anchor that never matches,
playback polls twice (locate + 0.25 s sleep each) and fails with
`timeout`. -/
theorem wait_for_image_polling_witness :
    run_action noneEnv
        { type := "desktop_wait_for_image", data := { timeoutMs := some 500 } } =
      ({ ok := false, error := some "timeout" },
        [Effect.locate none (8/10), Effect.sleep (1/4),
          Effect.locate none (8/10), Effect.sleep (1/4)]) :=
  (((wait_for_image_polling noneEnv { timeoutMs := some 500 }).1
      (fun _ _ => rfl)).1).trans (by with_unfolding_all decide)

/-- C10: when the anchor image matches, the click issued at the matched
region's center uses the default (left) mouse button regardless of the
record's `button` field (the source passes no `button` argument to
`pyautogui.click` there); the coordinate-fallback click on no match (path
falsy, or locate miss) uses the record's `button` field, defaulting to
"left". -/
theorem click_image_button_choice (env : AutoEnv) (data : ActionData) :
    (∀ box : Box, pyTruthyStr data.imagePath = true →
      env.locateRes 0 = Except.ok (some box) → env.clickRes = Except.ok () →
      run_action env { type := "desktop_click_image", data := data } =
        ({ ok := true, matched := some true },
          [Effect.locate data.imagePath (data.confidence.getD (8/10)),
            Effect.click (some (box.left + box.width / 2))
              (some (box.top + box.height / 2)) "left"]))
    ∧ (∀ a b : Rat, pyTruthyStr data.imagePath = false →
      data.x = some a → data.y = some b → env.clickRes = Except.ok () →
      run_action env { type := "desktop_click_image", data := data } =
        ({ ok := true, matched := some false },
          [Effect.click (some a) (some b) (data.button.getD "left")]))
    ∧ (∀ a b : Rat, pyTruthyStr data.imagePath = true →
      env.locateRes 0 = Except.ok none →
      data.x = some a → data.y = some b → env.clickRes = Except.ok () →
      run_action env { type := "desktop_click_image", data := data } =
        ({ ok := true, matched := some false },
          [Effect.locate data.imagePath (data.confidence.getD (8/10)),
            Effect.click (some a) (some b) (data.button.getD "left")])) := by
  refine ⟨?_, ?_, ?_⟩
  · intro box hp hloc hc
    rw [run_action, run_action_inner]
    simp [hp, hloc, hc]
  · intro a b hp hx hy hc
    rw [run_action, run_action_inner]
    simp [hp, hx, hy, hc]
  · intro a b hp hloc hx hy hc
    rw [run_action, run_action_inner]
    simp [hp, hloc, hx, hy, hc]

/-- C10 witness: with a matching anchor the click lands on the region's
center with button "left" even though the record says "right"; with no
match the fallback click uses the record's "right" button. -/
theorem click_image_button_choice_witness :
    run_action
        { locateRes := fun _ => .ok (some ⟨10, 20, 30, 40⟩), clickRes := .ok (),
          typeRes := .ok () }
        { type := "desktop_click_image",
          data := { imagePath := some "a.png", button := some "right" } } =
      ({ ok := true, matched := some true },
        [Effect.locate (some "a.png") (8/10),
          Effect.click (some 25) (some 40) "left"]) ∧
    run_action noneEnv
        { type := "desktop_click_image",
          data := { imagePath := some "a.png", x := some 3, y := some 4,
                    button := some "right" } } =
      ({ ok := true, matched := some false },
        [Effect.locate (some "a.png") (8/10),
          Effect.click (some 3) (some 4) "right"]) := by
  constructor
  · exact ((click_image_button_choice
        { locateRes := fun _ => .ok (some ⟨10, 20, 30, 40⟩), clickRes := .ok (),
          typeRes := .ok () }
        { imagePath := some "a.png", button := some "right" }).1
        ⟨10, 20, 30, 40⟩ (by with_unfolding_all decide) rfl rfl).trans
      (by with_unfolding_all decide)
  · exact ((click_image_button_choice noneEnv
        { imagePath := some "a.png", x := some 3, y := some 4,
          button := some "right" }).2.2
        3 4 (by with_unfolding_all decide) rfl rfl rfl rfl).trans
      (by with_unfolding_all decide)

lemma run_action_snd (env : AutoEnv) (payload : RunPayload) :
    (run_action env payload).2 = (run_action_inner env payload).2 := by
  rw [run_action]
  rcases h : run_action_inner env payload with ⟨e | r, effs⟩ <;> rfl

/-- C3: playback never raises past the dispatcher: any exception `e`
raised by the automation capability inside the dispatch body is converted
to a result with `ok := false` and `error` carrying the exception's
message; and within one invocation at most one mouse click and at most
one text injection are performed (no retry). -/
theorem run_action_catches_and_no_retry (env : AutoEnv) (payload : RunPayload) :
    (∀ e, (run_action_inner env payload).1 = Except.error e →
      (run_action env payload).1 = { ok := false, error := some e })
    ∧ (run_action env payload).2.countP isClickEff ≤ 1
    ∧ (run_action env payload).2.countP isTypeEff ≤ 1 := by
  refine ⟨?_, ?_⟩
  · intro e he
    rw [run_action]
    rcases h : run_action_inner env payload with ⟨e2 | r, effs⟩
    · rw [h] at he
      simp at he
      simp [he]
    · rw [h] at he
      simp at he
  · rw [run_action_snd]
    rw [run_action_inner]
    by_cases h1 : payload.type = "desktop_click"
    · rcases hc : env.clickRes with e | u <;>
        simp [h1, hc, List.countP_cons, isClickEff, isTypeEff]
    · by_cases h2 : payload.type = "desktop_click_image"
      · simp only [if_neg h1, if_pos h2]
        by_cases hp : pyTruthyStr payload.data.imagePath
        · simp only [hp, if_true]
          rcases hloc : env.locateRes 0 with e | b
          · simp [List.countP_cons, isClickEff, isTypeEff]
          · rcases b with _ | box
            · by_cases hxy : payload.data.x ≠ none ∧ payload.data.y ≠ none
              · rcases hc : env.clickRes with e | u <;>
                  simp [hxy, hc, List.countP_cons, isClickEff, isTypeEff]
              · simp [hxy, List.countP_cons, isClickEff, isTypeEff]
            · rcases hc : env.clickRes with e | u <;>
                simp [hc, List.countP_cons, isClickEff, isTypeEff]
        · simp only [Bool.not_eq_true] at hp
          simp only [hp, Bool.false_eq_true, if_false]
          by_cases hxy : payload.data.x ≠ none ∧ payload.data.y ≠ none
          · rcases hc : env.clickRes with e | u <;>
              simp [hxy, hc, List.countP_cons, isClickEff, isTypeEff]
          · simp [hxy, List.countP_cons, isClickEff, isTypeEff]
      · by_cases h3 : payload.type = "desktop_type"
        · rcases ht : env.typeRes with e | u <;>
            simp [h1, h2, h3, ht, List.countP_cons, isClickEff, isTypeEff]
        · by_cases h4 : payload.type = "desktop_wait_for_image"
          · simp only [if_neg h1, if_neg h2, if_neg h3, if_pos h4]
            have hcounts := wait_loop_counts env payload.data.imagePath
              (numPolls (payload.data.timeoutMs.getD 10000 / 1000)) 0
            exact ⟨le_of_eq_of_le hcounts.1 (by omega),
              le_of_eq_of_le hcounts.2 (by omega)⟩
          · simp [h1, h2, h3, h4]

/-- C3 witness: a raising `pyautogui.click` on a `desktop_click` action is
reported as `ok := false` with the exception's message. -/
theorem run_action_catches_witness :
    (run_action
        { locateRes := fun _ => .ok none, clickRes := .error "boom",
          typeRes := .ok () }
        { type := "desktop_click", data := {} }).1 =
      { ok := false, error := some "boom" } :=
  (run_action_catches_and_no_retry
      { locateRes := fun _ => .ok none, clickRes := .error "boom",
        typeRes := .ok () }
      { type := "desktop_click", data := {} }).1 "boom" rfl

/-- C7: stopping while the pending key-run buffer is non-empty flushes it
as a final `type_text` record, which is the returned log's last element;
stopping with an empty buffer appends nothing. -/
theorem record_stop_flushes (s : RecState) :
    (s.key_buffer ≠ [] →
      (record_stop s).2 = s.recorded_events ++
          [Event.desktop_type (String.join s.key_buffer)]
      ∧ (record_stop s).2.getLast? =
          some (Event.desktop_type (String.join s.key_buffer)))
    ∧ (s.key_buffer = [] → (record_stop s).2 = s.recorded_events) := by
  constructor
  · intro h
    have he : (record_stop s).2 = s.recorded_events ++
        [Event.desktop_type (String.join s.key_buffer)] := by
      rw [record_stop_snd, flushEvents, if_neg h]
    exact ⟨he, by rw [he]; simp⟩
  · intro h
    rw [record_stop_snd, flushEvents, if_pos h]
    simp

/-- C7 witness: stopping with buffer ["h","i"] appends `type_text "hi"` as
the last record; stopping with an empty buffer returns the log unchanged. -/
theorem record_stop_flushes_witness :
    (record_stop
        { recording := true
          recorded_events := []
          key_buffer := ["h", "i"]
          last_key_ts := 1 }).2 =
      [] ++ [Event.desktop_type (String.join ["h", "i"])]
    ∧ (record_stop
        { recording := true
          recorded_events := [Event.desktop_type "x"]
          key_buffer := []
          last_key_ts := 1 }).2 = [Event.desktop_type "x"] :=
  ⟨((record_stop_flushes _).1 (by with_unfolding_all decide)).1,
    (record_stop_flushes _).2 rfl⟩

/-- C2 (code bug): while recording with a session directory set, a click
press at (50,50) whose anchor screenshot raises lets the exception escape
`on_click` — no `desktop_click_image` record is appended (the spec says
the record should be appended with no image path, without aborting). -/
theorem screenshot_failure_drops_click_record :
    on_click 50 50 "Button.left" true (some "/app/recordings/20240101_000000")
        "click_1.png" (Except.error "screenshot failed")
        { recording := true, recorded_events := [], key_buffer := [],
          last_key_ts := 0 } =
      ({ recording := true, recorded_events := [], key_buffer := [],
          last_key_ts := 0 },
        some "screenshot failed") := by
  with_unfolding_all decide

/-- C6 counterexample: an unmapped key (`f1`) pressed while recording at a
gap of 1 s > 0.7 s after the previous keystroke does change the coalescer
state: it flushes the pending buffer into a `type_text` record and updates
the last-keystroke timestamp. -/
theorem unmapped_key_changes_state :
    key_to_char (Key.other "f1") = none
    ∧ on_press (Key.other "f1") 2
        { recording := true, recorded_events := [], key_buffer := ["a"],
          last_key_ts := 1 } =
      { recording := true, recorded_events := [Event.desktop_type "a"],
        key_buffer := [], last_key_ts := 2 }
    ∧ (on_press (Key.other "f1") 2
        { recording := true, recorded_events := [], key_buffer := ["a"],
          last_key_ts := 1 }).recorded_events ≠ ([] : List Event) := by
  with_unfolding_all decide

/-- C6 (amended): an unmapped key pressed while recording appends nothing
to the buffer and produces no record of its own, but the idle-gap check
still runs first — flushing a non-empty pending buffer into a `type_text`
record when the gap exceeds 0.7 s — and the last-keystroke timestamp is
updated to the press time; the rest of the state is unchanged. -/
theorem unmapped_key_gap_check_only (k : Key) (now : Rat) (s : RecState)
    (hr : s.recording = true) (hk : key_to_char k = none) :
    (¬(s.last_key_ts ≠ 0 ∧ now - s.last_key_ts > KEY_GROUP_TIMEOUT) →
      on_press k now s = { s with last_key_ts := now })
    ∧ (s.last_key_ts ≠ 0 → now - s.last_key_ts > KEY_GROUP_TIMEOUT →
      on_press k now s =
        { s with
          recorded_events := s.recorded_events ++ flushEvents s.key_buffer
          key_buffer := []
          last_key_ts := now }) := by
  constructor
  · intro hg
    rw [on_press_no_flush k now s hr hg, hk]
    rfl
  · intro h0 hg
    rw [on_press_flush k now s hr h0 hg, hk]
    rfl

/-- C6 witness: with a small gap an unmapped key only restamps the
timestamp; with a 1.3 s gap it flushes the pending "a" into a record. -/
theorem unmapped_key_gap_check_only_witness :
    on_press (Key.other "esc") 5
        { recording := true, recorded_events := [], key_buffer := ["a"],
          last_key_ts := 0 } =
      { recording := true, recorded_events := [], key_buffer := ["a"],
        last_key_ts := 5 }
    ∧ on_press (Key.other "esc") (23/10)
        { recording := true, recorded_events := [], key_buffer := ["a"],
          last_key_ts := 1 } =
      { recording := true, recorded_events := [Event.desktop_type "a"],
        key_buffer := [], last_key_ts := 23/10 } := by
  constructor
  · exact (unmapped_key_gap_check_only (Key.other "esc") 5
      { recording := true, recorded_events := [], key_buffer := ["a"],
        last_key_ts := 0 } rfl rfl).1 (by with_unfolding_all decide)
  · exact ((unmapped_key_gap_check_only (Key.other "esc") (23/10)
      { recording := true, recorded_events := [], key_buffer := ["a"],
        last_key_ts := 1 } rfl rfl).2 (by with_unfolding_all decide)
      (by with_unfolding_all decide)).trans (by with_unfolding_all decide)

/-- C4 counterexample: the accepted keystrokes 'a' then backspace, 0.2 s
apart (all gaps ≤ 0.7 s), followed by stop, produce no `type_text` record
at all — not exactly one. -/
theorem coalescer_backspaced_away_no_record :
    GapsOK 0 [(Key.keycode (some 'a'), 1), (Key.backspace, 6/5)]
    ∧ (∀ k ∈ [(Key.keycode (some 'a'), 1), (Key.backspace, 6/5)],
        (key_to_char k.1).isSome = true)
    ∧ (record_stop (processKeys record_start
        [(Key.keycode (some 'a'), 1), (Key.backspace, 6/5)])).2 = [] := by
  with_unfolding_all decide

/-- C4 (amended): for accepted keystrokes delivered while recording with
all inter-key gaps at most 0.7 s, followed by a flush (click or stop),
the coalescer produces exactly one `type_text` record whose value is the
surviving characters in arrival order (each backspace popping the last
pending character), provided at least one character survives; if the
backspaces empty the run, no record is produced. -/
theorem coalescer_single_burst (ks : List (Key × Rat))
    (hacc : ∀ k ∈ ks, (key_to_char k.1).isSome = true)
    (hg : GapsOK 0 ks) :
    (applyKeys [] (ks.map Prod.fst) ≠ [] →
      (record_stop (processKeys record_start ks)).2 =
        [Event.desktop_type (String.join (applyKeys [] (ks.map Prod.fst)))])
    ∧ (applyKeys [] (ks.map Prod.fst) = [] →
      (record_stop (processKeys record_start ks)).2 = [])
    ∧ (applyKeys [] (ks.map Prod.fst) ≠ [] →
      ∀ (x y : Rat) (button dir path : String), dir ≠ "" →
      (on_click x y button true (some dir) path (Except.ok ())
          (processKeys record_start ks)).1.recorded_events =
        [Event.desktop_type (String.join (applyKeys [] (ks.map Prod.fst))),
          Event.desktop_click_image x y button (some path) (8/10)]) := by
  have h := processKeys_tight ks record_start rfl hg
  refine ⟨?_, ?_, ?_⟩
  · intro hne
    rw [h, record_stop_snd]
    simp [record_start, flushEvents, hne]
  · intro he
    rw [h, record_stop_snd]
    simp [record_start, flushEvents, he]
  · intro hne x y button dir path hdir
    rw [h, on_click]
    simp [record_start, flush_keys, pyTruthyStr, hdir, hne]

/-- C4 witness: 'h' then 'i' 0.1 s apart then stop yield exactly the
record `type_text "hi"`. -/
theorem coalescer_single_burst_witness :
    (record_stop (processKeys record_start
        [(Key.keycode (some 'h'), 1), (Key.keycode (some 'i'), 11/10)])).2 =
      [Event.desktop_type "hi"] :=
  ((coalescer_single_burst
      [(Key.keycode (some 'h'), 1), (Key.keycode (some 'i'), 11/10)]
      (by with_unfolding_all decide) (by with_unfolding_all decide)).1
    (by with_unfolding_all decide)).trans (by with_unfolding_all decide)

/-- C5 counterexample: backspace at t=1 (an accepted keystroke, leaving
the buffer empty), then 'a' at t=2 — a gap of 1 s > 0.7 s: the flush
before the new keystroke creates no `type_text` record, and stopping
yields one record for the two gap-separated runs, not one per run. -/
theorem coalescer_empty_flush_no_record :
    (key_to_char Key.backspace).isSome = true
    ∧ (key_to_char (Key.keycode (some 'a'))).isSome = true
    ∧ ((2 : Rat) - 1 > KEY_GROUP_TIMEOUT)
    ∧ (on_press (Key.keycode (some 'a')) 2
        (processKeys record_start [(Key.backspace, 1)])).recorded_events = []
    ∧ (record_stop (processKeys record_start
        [(Key.backspace, 1), (Key.keycode (some 'a'), 2)])).2 =
      [Event.desktop_type "a"] := by
  with_unfolding_all decide

/-- C5 (amended): at a gap exceeding 0.7 s between accepted keystrokes,
a non-empty pending buffer is flushed into a `type_text` record before
the new keystroke is processed; consequently a sequence of positively
timestamped bursts separated by such gaps, each leaving a non-empty
buffer, yields exactly one `type_text` record per burst, in order —
characters from different bursts are never merged into one record. -/
theorem coalescer_one_record_per_burst :
    (∀ (s : RecState) (k : Key) (t : Rat), s.recording = true →
      s.last_key_ts ≠ 0 → t - s.last_key_ts > KEY_GROUP_TIMEOUT →
      s.key_buffer ≠ [] →
      (on_press k t s).recorded_events =
        s.recorded_events ++ [Event.desktop_type (String.join s.key_buffer)])
    ∧ ∀ runs : List (List (Key × Rat)), RunsOK 0 runs →
      (∀ r ∈ runs, ∀ k ∈ r, (key_to_char k.1).isSome = true) →
      (∀ r ∈ runs, runText r ≠ []) →
      (record_stop (processKeys record_start runs.flatten)).2 =
        runs.map (fun r => Event.desktop_type (String.join (runText r))) := by
  constructor
  · intro s k t hr h0 hg hb
    rw [on_press_flush k t s hr h0 hg]
    simp [flushEvents, hb]
  · intro runs hruns hacc hne
    have h := processKeys_runs runs record_start rfl hruns (fun _ => rfl)
    rw [h, record_stop_snd]
    have h2 := runsFlushes_stop runs [] hne
    simp only [record_start, List.nil_append, List.append_assoc]
    rw [h2]
    simp [flushEvents]

/-- C5 witness: the bursts 'h' at t=1 and 'i' at t=2 (gap 1 s) yield two
separate `type_text` records, one per burst; and a pending "a" is flushed
by a keystroke 1.3 s later. -/
theorem coalescer_one_record_per_burst_witness :
    (on_press (Key.keycode (some 'b')) 2
        { recording := true, recorded_events := [], key_buffer := ["a"],
          last_key_ts := 1 }).recorded_events =
      [] ++ [Event.desktop_type (String.join ["a"])]
    ∧ (record_stop (processKeys record_start
        [[(Key.keycode (some 'h'), 1)], [(Key.keycode (some 'i'), 2)]].flatten)).2 =
      [Event.desktop_type "h", Event.desktop_type "i"] := by
  constructor
  · exact (coalescer_one_record_per_burst).1
      { recording := true, recorded_events := [], key_buffer := ["a"],
        last_key_ts := 1 } (Key.keycode (some 'b')) 2 rfl
      (by with_unfolding_all decide) (by with_unfolding_all decide)
      (by with_unfolding_all decide)
  · exact ((coalescer_one_record_per_burst).2
      [[(Key.keycode (some 'h'), 1)], [(Key.keycode (some 'i'), 2)]]
      (by with_unfolding_all decide) (by with_unfolding_all decide)
      (by with_unfolding_all decide)).trans (by with_unfolding_all decide)

/-- C1: start, press 'h' at t₁ and 'i' at t₂ with the inter-key gap below
0.7 s, then a click press at (50,50) with a successful anchor capture,
then stop: no exception escapes and the returned log is exactly
`type_text "hi"` followed by a `click_image` record carrying x=50, y=50,
the button, the anchor image path and confidence 0.8. -/
theorem session_hi_then_click (t1 t2 : Rat) (button dir path : String)
    (hgap : t2 - t1 < KEY_GROUP_TIMEOUT) (hdir : dir ≠ "") :
    (on_click 50 50 button true (some dir) path (Except.ok ())
      (on_press (Key.keycode (some 'i')) t2
        (on_press (Key.keycode (some 'h')) t1 record_start))).2 = none
    ∧ (record_stop (on_click 50 50 button true (some dir) path (Except.ok ())
        (on_press (Key.keycode (some 'i')) t2
          (on_press (Key.keycode (some 'h')) t1 record_start))).1).2 =
      [Event.desktop_type "hi",
        Event.desktop_click_image 50 50 button (some path) (8/10)] := by
  have h1 : on_press (Key.keycode (some 'h')) t1 record_start =
      { recording := true
        recorded_events := []
        key_buffer := ["h"]
        last_key_ts := t1 } := by
    rw [on_press_no_flush _ _ _ rfl (by simp [record_start])]
    rfl
  have h2 : on_press (Key.keycode (some 'i')) t2
        { recording := true
          recorded_events := []
          key_buffer := ["h"]
          last_key_ts := t1 } =
      { recording := true
        recorded_events := []
        key_buffer := ["h", "i"]
        last_key_ts := t2 } := by
    rw [on_press_no_flush _ _ _ rfl
      (fun hc => absurd hgap (not_lt.mpr (le_of_lt hc.2)))]
    rfl
  rw [h1, h2]
  have h3 : on_click 50 50 button true (some dir) path (Except.ok ())
        { recording := true
          recorded_events := []
          key_buffer := ["h", "i"]
          last_key_ts := t2 } =
      ({ recording := true
         recorded_events := [Event.desktop_type "hi",
           Event.desktop_click_image 50 50 button (some path) (8/10)]
         key_buffer := []
         last_key_ts := t2 }, none) := by
    rw [on_click]
    simp [flush_keys, pyTruthyStr, hdir]
    decide
  rw [h3]
  exact ⟨rfl, rfl⟩

/-- C1 witness: the session at t₁ = 1, t₂ = 1.1 with button
"Button.left", a session directory and a saved anchor path produces
exactly the two expected records. -/
theorem session_hi_then_click_witness :
    (on_click 50 50 "Button.left" true (some "/app/recordings/s") "c.png"
      (Except.ok ())
      (on_press (Key.keycode (some 'i')) (11/10)
        (on_press (Key.keycode (some 'h')) 1 record_start))).2 = none
    ∧ (record_stop (on_click 50 50 "Button.left" true (some "/app/recordings/s")
        "c.png" (Except.ok ())
        (on_press (Key.keycode (some 'i')) (11/10)
          (on_press (Key.keycode (some 'h')) 1 record_start))).1).2 =
      [Event.desktop_type "hi",
        Event.desktop_click_image 50 50 "Button.left" (some "c.png") (8/10)] :=
  session_hi_then_click 1 (11/10) "Button.left" "/app/recordings/s" "c.png"
    (by with_unfolding_all decide) (by with_unfolding_all decide)

end ForgeFlow
